import Mathlib

/-!
Verification of the holistic-replay example script
(`examples/python/RVC2/RecordReplay/holistic_replay.py`).

The script parses one optional `--source` CLI argument (default
`recordings/recording.tar.gz`), configures a pipeline with a color-camera
node and an IMU node, enables holistic replay from the source path, starts
the pipeline and then drives a loop:

  while pipeline.isRunning():
      videoIn = videoQueue.get()
      imuData = imuQueue.get()
      cv2.imshow("video", videoIn.getCvFrame())
      for packet in imuData.packets:
          print(accelerometer); print(gyroscope)
      if cv2.waitKey(1) == ord('q'):
          break

We embed the loop shallowly.  Every external effect (`isRunning`,
`videoQueue.get`, `imuQueue.get`, `getCvFrame`, `cv2.imshow`,
`cv2.waitKey`) is an oracle supplied by an `Env`, indexed by the iteration
number where the external state can change between iterations.  Fallible
operations return `Except`: a `.error` models a Python exception, which the
script never catches.  The loop is run with fuel (the script's loop need
not terminate); the embedding records the trace of observable events so
that ordering and counting claims become statements about the trace.

Numeric sensor readings are `float` in the source; no claim depends on
their arithmetic, so they are modelled as opaque integer triples.
-/

namespace HolisticReplay

/-- Opaque handle to one decoded video frame (`dai.ImgFrame`). -/
structure ImgFrame where
  frameId : Nat
deriving Repr, DecidableEq

/-- Opaque handle to the BGR pixel buffer returned by `ImgFrame.getCvFrame`. -/
structure CvFrame where
  bufId : Nat
deriving Repr, DecidableEq

/-- A 3-axis sensor reading (accelerometer or gyroscope report).
The source carries floats; modelled opaquely since no claim uses their values. -/
structure IMUReport where
  x : Int
  y : Int
  z : Int
deriving Repr, DecidableEq

/-- One IMU packet: an accelerometer report and a gyroscope report
(`packet.acceleroMeter`, `packet.gyroscope`). -/
structure IMUPacket where
  acceleroMeter : IMUReport
  gyroscope : IMUReport
deriving Repr, DecidableEq

/-- One batch pulled from the IMU queue (`dai.IMUData`): an ordered list of packets. -/
structure IMUData where
  packets : List IMUPacket
deriving Repr, DecidableEq

/-- The key code the script compares the poll result against: `ord('q')`. -/
def ordQ : Int := Int.ofNat (Char.toNat 'q')

/-- Observable events of one run of the driver loop, in program order. -/
inductive Event where
  /-- `videoQueue.get()` returned this frame. -/
  | getVideo (f : ImgFrame)
  /-- `imuQueue.get()` returned this batch. -/
  | getIMU (d : IMUData)
  /-- `cv2.imshow(name, cvFrame)` rendered the converted frame in the named window. -/
  | imshow (name : String) (cf : CvFrame)
  /-- `print` of one packet's accelerometer report. -/
  | printAccel (r : IMUReport)
  /-- `print` of one packet's gyroscope report. -/
  | printGyro (r : IMUReport)
  /-- `cv2.waitKey(delayMs)` was polled and returned `key`. -/
  | poll (delayMs : Nat) (key : Int)
deriving Repr, DecidableEq

/-- Oracle for the external world: the pipeline, the two output queues and
OpenCV.  Indexed by the loop iteration number (external state can change
between iterations).  `Except ε` results model Python exceptions. -/
structure Env (ε : Type) where
  /-- `pipeline.isRunning()` as observed at the top of iteration `i`. -/
  running : Nat → Bool
  /-- `videoQueue.get()` during iteration `i`. -/
  videoGet : Nat → Except ε ImgFrame
  /-- `imuQueue.get()` during iteration `i`. -/
  imuGet : Nat → Except ε IMUData
  /-- `videoIn.getCvFrame()` conversion of a frame. -/
  getCvFrame : ImgFrame → Except ε CvFrame
  /-- `cv2.imshow(name, cvFrame)`. -/
  imshow : String → CvFrame → Except ε Unit
  /-- `cv2.waitKey(delayMs)` polled during iteration `i`. -/
  waitKey : Nat → Nat → Int

/-- Outcome of one execution of the loop body. -/
inductive BodyOutcome (ε : Type) where
  /-- Body completed, no `break`: the loop re-tests `isRunning`. -/
  | ok
  /-- Body completed and `break` was taken (`waitKey(1) == ord('q')`). -/
  | brk
  /-- An uncaught exception escaped the body. -/
  | err (e : ε)
deriving Repr

/-- The `for packet in imuData.packets` loop: per packet, print the
accelerometer report then the gyroscope report. -/
def printPackets : List IMUPacket → List Event
  | [] => []
  | p :: ps => Event.printAccel p.acceleroMeter :: Event.printGyro p.gyroscope ::
      printPackets ps

/-- One execution of the loop body at iteration `i`: get a video frame, get
an IMU batch, convert and show the frame, print every packet, poll
`waitKey(1)` and break on `ord('q')`.  Returns the events that actually
happened (an exception cuts the iteration short) and the outcome. -/
def loopBody {ε : Type} (env : Env ε) (i : Nat) : List Event × BodyOutcome ε :=
  match env.videoGet i with
  | .error e => ([], .err e)
  | .ok videoIn =>
    match env.imuGet i with
    | .error e => ([Event.getVideo videoIn], .err e)
    | .ok imuData =>
      match env.getCvFrame videoIn with
      | .error e => ([Event.getVideo videoIn, Event.getIMU imuData], .err e)
      | .ok cvFrame =>
        match env.imshow "video" cvFrame with
        | .error e => ([Event.getVideo videoIn, Event.getIMU imuData], .err e)
        | .ok _ =>
          let k := env.waitKey i 1
          let evs := Event.getVideo videoIn :: Event.getIMU imuData ::
              Event.imshow "video" cvFrame ::
              (printPackets imuData.packets ++ [Event.poll 1 k])
          (evs, if k = ordQ then .brk else .ok)

/-- How a (fuel-bounded) run of the driver loop ended. -/
inductive RunResult (ε : Type) where
  /-- `pipeline.isRunning()` returned false at the top of an iteration. -/
  | normal
  /-- `break` on the cancellation keystroke. -/
  | cancelled
  /-- An uncaught exception propagated out of the loop. -/
  | errored (e : ε)
  /-- Fuel ran out before the loop ended (the real loop is still running). -/
  | fuelOut
deriving Repr

/-- Result of a fuel-bounded run: the event trace, the number of iterations
whose body ran to completion, and how the run ended. -/
structure RunOut (ε : Type) where
  trace : List Event
  iters : Nat
  result : RunResult ε
deriving Repr

/-- The driver loop `while pipeline.isRunning(): ...`, started at iteration
index `i`, bounded by `fuel` iterations. -/
def runLoop {ε : Type} (env : Env ε) : Nat → Nat → RunOut ε
  | _, 0 => ⟨[], 0, .fuelOut⟩
  | i, fuel + 1 =>
    if env.running i then
      match loopBody env i with
      | (evs, .ok) =>
        let rest := runLoop env (i + 1) fuel
        ⟨evs ++ rest.trace, rest.iters + 1, rest.result⟩
      | (evs, .brk) => ⟨evs, 1, .cancelled⟩
      | (evs, .err e) => ⟨evs, 0, .errored e⟩
    else ⟨[], 0, .normal⟩

/-! ## CLI argument parsing and pipeline configuration -/

/-- `dai.CameraBoardSocket` values used by the script. -/
inductive CameraBoardSocket where
  | CAM_A
  | CAM_B
  | CAM_C
deriving Repr, DecidableEq

/-- `dai.ColorCameraProperties.SensorResolution` values used by the script. -/
inductive SensorResolution where
  | THE_1080_P
  | THE_4_K
  | THE_12_MP
deriving Repr, DecidableEq

/-- `dai.IMUSensor` values used by the script. -/
inductive IMUSensor where
  | ACCELEROMETER_RAW
  | GYROSCOPE_RAW
  | ROTATION_VECTOR
deriving Repr, DecidableEq

/-- Configuration the script applies to the color-camera node. -/
structure ColorCameraConfig where
  boardSocket : CameraBoardSocket
  resolution : SensorResolution
  videoWidth : Nat
  videoHeight : Nat
  fps : Nat
deriving Repr, DecidableEq

/-- Configuration the script applies to the IMU node: the enabled sensor
channels with their sample rates, in call order. -/
structure IMUConfig where
  enabledSensors : List (IMUSensor × Nat)
deriving Repr, DecidableEq

/-- Everything the script configures on the pipeline before `start()`. -/
structure PipelineConfig where
  replaySource : String
  camera : ColorCameraConfig
  imu : IMUConfig
deriving Repr, DecidableEq

/-- Default of the `--source` argparse argument. -/
def defaultSource : String := "recordings/recording.tar.gz"

/-- `argparse` resolution of the replay-source path: the given value, or the
default when the flag is absent. -/
def parseSource : Option String → String
  | none => defaultSource
  | some s => s

/-- The pipeline configuration the script builds before `pipeline.start()`:
replay source from the CLI, camera node on CAM_A at 1080p with video size
1920x1080 at 30 fps, IMU node with raw accelerometer at 500 Hz and raw
gyroscope at 400 Hz. -/
def buildPipelineConfig (sourceArg : Option String) : PipelineConfig :=
  ⟨parseSource sourceArg,
   ⟨CameraBoardSocket.CAM_A, SensorResolution.THE_1080_P, 1920, 1080, 30⟩,
   ⟨[(IMUSensor.ACCELEROMETER_RAW, 500), (IMUSensor.GYROSCOPE_RAW, 400)]⟩⟩

/-! ## Event classification predicates -/

/-- Is this event a video-queue retrieval? -/
def isGetVideo : Event → Bool
  | .getVideo _ => true
  | _ => false

/-- Is this event an IMU-queue retrieval? -/
def isGetIMU : Event → Bool
  | .getIMU _ => true
  | _ => false

/-- Is this event a `waitKey` poll? -/
def isPoll : Event → Bool
  | .poll _ _ => true
  | _ => false

/-- Is this event an accelerometer emission? -/
def isPrintAccel : Event → Bool
  | .printAccel _ => true
  | _ => false

/-- Is this event a gyroscope emission? -/
def isPrintGyro : Event → Bool
  | .printGyro _ => true
  | _ => false

/-- Is this event any emission to the text sink? -/
def isPrint (e : Event) : Bool := isPrintAccel e || isPrintGyro e

/-! ## Lemmas about `printPackets` -/

/-- `printPackets` emits nothing that is neither an accelerometer nor a
gyroscope report. -/
theorem printPackets_countP_zero (ps : List IMUPacket) (p : Event → Bool)
    (hA : ∀ r, p (Event.printAccel r) = false)
    (hG : ∀ r, p (Event.printGyro r) = false) :
    (printPackets ps).countP p = 0 := by
  induction ps with
  | nil => rfl
  | cons q qs ih => simp [printPackets, List.countP_cons, hA, hG, ih]

/-- One accelerometer emission per packet. -/
theorem printPackets_countP_accel (ps : List IMUPacket) :
    (printPackets ps).countP isPrintAccel = ps.length := by
  induction ps with
  | nil => rfl
  | cons q qs ih =>
    simp [printPackets, List.countP_cons, isPrintAccel, ih]

/-- One gyroscope emission per packet. -/
theorem printPackets_countP_gyro (ps : List IMUPacket) :
    (printPackets ps).countP isPrintGyro = ps.length := by
  induction ps with
  | nil => rfl
  | cons q qs ih =>
    simp [printPackets, List.countP_cons, isPrintGyro, ih]

/-- Every event emitted by `printPackets` is a print event. -/
theorem mem_printPackets {ps : List IMUPacket} {ev : Event}
    (h : ev ∈ printPackets ps) :
    (∃ r, ev = Event.printAccel r) ∨ ∃ r, ev = Event.printGyro r := by
  induction ps with
  | nil => simp [printPackets] at h
  | cons q qs ih =>
    simp only [printPackets, List.mem_cons] at h
    rcases h with rfl | rfl | h
    · exact Or.inl ⟨_, rfl⟩
    · exact Or.inr ⟨_, rfl⟩
    · exact ih h

/-- The packet loop emits only print events. -/
theorem printPackets_filter_isPrint (ps : List IMUPacket) :
    (printPackets ps).filter isPrint = printPackets ps := by
  induction ps with
  | nil => rfl
  | cons q qs ih =>
    simp [printPackets, List.filter_cons, isPrint, isPrintAccel, isPrintGyro, ih]

/-- The packet at index `n` yields exactly its accelerometer emission at
trace position `2n` and its gyroscope emission at position `2n + 1`. -/
theorem printPackets_get (ps : List IMUPacket) (n : Nat) (hn : n < ps.length) :
    (printPackets ps).get? (2 * n) =
      some (Event.printAccel (ps.get ⟨n, hn⟩).acceleroMeter) ∧
    (printPackets ps).get? (2 * n + 1) =
      some (Event.printGyro (ps.get ⟨n, hn⟩).gyroscope) := by
  induction ps generalizing n with
  | nil => exact absurd hn (by simp)
  | cons q qs ih =>
    cases n with
    | zero => exact ⟨rfl, rfl⟩
    | succ m =>
      have h2 : 2 * (m + 1) = 2 * m + 1 + 1 := by omega
      have hm : m < qs.length := by simpa using hn
      have := ih m hm
      simp only [printPackets, h2, List.get?_cons_succ]
      exact this

/-! ## Case equations for `loopBody` -/

/-- If `videoQueue.get()` raises, the body stops at once with no events. -/
theorem loopBody_err_video {ε : Type} (env : Env ε) (i : Nat) (e : ε)
    (hv : env.videoGet i = Except.error e) :
    loopBody env i = ([], BodyOutcome.err e) := by
  simp [loopBody, hv]

/-- If `imuQueue.get()` raises, the body stops after the video retrieval. -/
theorem loopBody_err_imu {ε : Type} (env : Env ε) (i : Nat) (f : ImgFrame) (e : ε)
    (hv : env.videoGet i = Except.ok f) (hd : env.imuGet i = Except.error e) :
    loopBody env i = ([Event.getVideo f], BodyOutcome.err e) := by
  simp [loopBody, hv, hd]

/-- If the frame conversion raises, the body stops after both retrievals. -/
theorem loopBody_err_cv {ε : Type} (env : Env ε) (i : Nat) (f : ImgFrame)
    (d : IMUData) (e : ε)
    (hv : env.videoGet i = Except.ok f) (hd : env.imuGet i = Except.ok d)
    (hc : env.getCvFrame f = Except.error e) :
    loopBody env i = ([Event.getVideo f, Event.getIMU d], BodyOutcome.err e) := by
  simp [loopBody, hv, hd, hc]

/-- If `cv2.imshow` raises, the body stops after both retrievals. -/
theorem loopBody_err_imshow {ε : Type} (env : Env ε) (i : Nat) (f : ImgFrame)
    (d : IMUData) (cf : CvFrame) (e : ε)
    (hv : env.videoGet i = Except.ok f) (hd : env.imuGet i = Except.ok d)
    (hc : env.getCvFrame f = Except.ok cf)
    (hs : env.imshow "video" cf = Except.error e) :
    loopBody env i = ([Event.getVideo f, Event.getIMU d], BodyOutcome.err e) := by
  simp [loopBody, hv, hd, hc, hs]

/-- When every external call succeeds, the body performs the five steps in
order — video retrieval, IMU retrieval, named display of the converted
frame, per-packet emissions, keystroke poll with delay `1` — and breaks
exactly when the poll returned `ord q`. -/
theorem loopBody_ok_eq {ε : Type} (env : Env ε) (i : Nat) (f : ImgFrame)
    (d : IMUData) (cf : CvFrame)
    (hv : env.videoGet i = Except.ok f) (hd : env.imuGet i = Except.ok d)
    (hc : env.getCvFrame f = Except.ok cf)
    (hs : env.imshow "video" cf = Except.ok ()) :
    loopBody env i =
      (Event.getVideo f :: Event.getIMU d :: Event.imshow "video" cf ::
        (printPackets d.packets ++ [Event.poll 1 (env.waitKey i 1)]),
       if env.waitKey i 1 = ordQ then BodyOutcome.brk else BodyOutcome.ok) := by
  simp [loopBody, hv, hd, hc, hs]

/-! ## Inversion lemmas for `loopBody` -/

/-- A body that completed (no exception) did so from four successful external
calls, produced exactly the five-step trace, and its break decision matches
the poll result. -/
theorem loopBody_complete_inv {ε : Type} (env : Env ε) (i : Nat)
    (evs : List Event) (o : BodyOutcome ε) (h : loopBody env i = (evs, o))
    (ho : o = BodyOutcome.ok ∨ o = BodyOutcome.brk) :
    ∃ f d cf, env.videoGet i = Except.ok f ∧ env.imuGet i = Except.ok d ∧
      env.getCvFrame f = Except.ok cf ∧ env.imshow "video" cf = Except.ok () ∧
      evs = Event.getVideo f :: Event.getIMU d :: Event.imshow "video" cf ::
        (printPackets d.packets ++ [Event.poll 1 (env.waitKey i 1)]) ∧
      ((o = BodyOutcome.brk ∧ env.waitKey i 1 = ordQ) ∨
       (o = BodyOutcome.ok ∧ env.waitKey i 1 ≠ ordQ)) := by
  cases hv : env.videoGet i with
  | error e =>
    rw [loopBody_err_video env i e hv] at h
    injection h with h1 h2
    subst h2
    rcases ho with h | h <;> exact absurd h (by simp)
  | ok f =>
    cases hd : env.imuGet i with
    | error e =>
      rw [loopBody_err_imu env i f e hv hd] at h
      injection h with h1 h2
      subst h2
      rcases ho with h | h <;> exact absurd h (by simp)
    | ok d =>
      cases hc : env.getCvFrame f with
      | error e =>
        rw [loopBody_err_cv env i f d e hv hd hc] at h
        injection h with h1 h2
        subst h2
        rcases ho with h | h <;> exact absurd h (by simp)
      | ok cf =>
        cases hs : env.imshow "video" cf with
        | error e =>
          rw [loopBody_err_imshow env i f d cf e hv hd hc hs] at h
          injection h with h1 h2
          subst h2
          rcases ho with h | h <;> exact absurd h (by simp)
        | ok u =>
          cases u
          rw [loopBody_ok_eq env i f d cf hv hd hc hs] at h
          injection h with h1 h2
          refine ⟨f, d, cf, rfl, rfl, hc, hs, h1.symm, ?_⟩
          by_cases hk : env.waitKey i 1 = ordQ
          · rw [if_pos hk] at h2
            exact Or.inl ⟨h2.symm, hk⟩
          · rw [if_neg hk] at h2
            exact Or.inr ⟨h2.symm, hk⟩

/-- A body that raised produced at most the two retrieval events — in
particular no display, no emission and no poll happened after the fault. -/
theorem loopBody_err_inv {ε : Type} (env : Env ε) (i : Nat)
    (evs : List Event) (e : ε) (h : loopBody env i = (evs, BodyOutcome.err e)) :
    evs = [] ∨ (∃ f, evs = [Event.getVideo f]) ∨
      ∃ f d, evs = [Event.getVideo f, Event.getIMU d] := by
  cases hv : env.videoGet i with
  | error e0 =>
    rw [loopBody_err_video env i e0 hv] at h
    injection h with h1 h2
    exact Or.inl h1.symm
  | ok f =>
    cases hd : env.imuGet i with
    | error e0 =>
      rw [loopBody_err_imu env i f e0 hv hd] at h
      injection h with h1 h2
      exact Or.inr (Or.inl ⟨f, h1.symm⟩)
    | ok d =>
      cases hc : env.getCvFrame f with
      | error e0 =>
        rw [loopBody_err_cv env i f d e0 hv hd hc] at h
        injection h with h1 h2
        exact Or.inr (Or.inr ⟨f, d, h1.symm⟩)
      | ok cf =>
        cases hs : env.imshow "video" cf with
        | error e0 =>
          rw [loopBody_err_imshow env i f d cf e0 hv hd hc hs] at h
          injection h with h1 h2
          exact Or.inr (Or.inr ⟨f, d, h1.symm⟩)
        | ok u =>
          cases u
          rw [loopBody_ok_eq env i f d cf hv hd hc hs] at h
          injection h with h1 h2
          by_cases hk : env.waitKey i 1 = ordQ
          · rw [if_pos hk] at h2
            exact absurd h2 (by simp)
          · rw [if_neg hk] at h2
            exact absurd h2 (by simp)

/-! ## Step equations for `runLoop` -/

/-- Out of fuel: the bounded run stops, reporting `fuelOut`. -/
theorem runLoop_zero {ε : Type} (env : Env ε) (i : Nat) :
    runLoop env i 0 = ⟨[], 0, RunResult.fuelOut⟩ := rfl

/-- `isRunning()` false at the top of an iteration: the loop exits normally
at once, with no further events. -/
theorem runLoop_not_running {ε : Type} (env : Env ε) (i fuel : Nat)
    (h : env.running i = false) :
    runLoop env i (fuel + 1) = ⟨[], 0, RunResult.normal⟩ := by
  simp [runLoop, h]

/-- A completed body without `break`: the loop continues at the next
iteration, prefixing this body's events. -/
theorem runLoop_body_ok {ε : Type} (env : Env ε) (i fuel : Nat)
    (evs : List Event) (hr : env.running i = true)
    (hb : loopBody env i = (evs, BodyOutcome.ok)) :
    runLoop env i (fuel + 1) =
      ⟨evs ++ (runLoop env (i + 1) fuel).trace,
       (runLoop env (i + 1) fuel).iters + 1,
       (runLoop env (i + 1) fuel).result⟩ := by
  simp [runLoop, hr, hb]

/-- A completed body that took `break`: the run ends as cancelled with just
this body's events. -/
theorem runLoop_body_brk {ε : Type} (env : Env ε) (i fuel : Nat)
    (evs : List Event) (hr : env.running i = true)
    (hb : loopBody env i = (evs, BodyOutcome.brk)) :
    runLoop env i (fuel + 1) = ⟨evs, 1, RunResult.cancelled⟩ := by
  simp [runLoop, hr, hb]

/-- A body that raised: the run ends `errored` — the partial iteration is
not counted, nothing is retried, no later iteration runs. -/
theorem runLoop_body_err {ε : Type} (env : Env ε) (i fuel : Nat)
    (evs : List Event) (e : ε) (hr : env.running i = true)
    (hb : loopBody env i = (evs, BodyOutcome.err e)) :
    runLoop env i (fuel + 1) = ⟨evs, 0, RunResult.errored e⟩ := by
  simp [runLoop, hr, hb]

/-! ## Run-level invariants (by induction on fuel) -/

/-- A normal exit happens exactly at the first `isRunning()` check that
returns false: after the completed iterations, `running` is false. -/
theorem run_normal_running_false {ε : Type} (env : Env ε) :
    ∀ fuel i, (runLoop env i fuel).result = RunResult.normal →
      env.running (i + (runLoop env i fuel).iters) = false := by
  intro fuel
  induction fuel with
  | zero =>
    intro i h
    rw [runLoop_zero] at h
    exact absurd h (by simp)
  | succ n ih =>
    intro i h
    cases hr : env.running i with
    | false => simp [runLoop_not_running env i n hr, hr]
    | true =>
      rcases hb : loopBody env i with ⟨evs, o⟩
      cases o with
      | ok =>
        rw [runLoop_body_ok env i n evs hr hb] at h ⊢
        simp only at h ⊢
        have h2 := ih (i + 1) h
        have harith : i + ((runLoop env (i + 1) n).iters + 1) =
            (i + 1) + (runLoop env (i + 1) n).iters := by omega
        rw [harith]
        exact h2
      | brk =>
        rw [runLoop_body_brk env i n evs hr hb] at h
        exact absurd h (by simp)
      | err e =>
        rw [runLoop_body_err env i n evs e hr hb] at h
        exact absurd h (by simp)

/-- A cancelled exit happens exactly at an iteration whose `isRunning()`
check was true and whose poll returned `ord q`; it is the last completed
iteration. -/
theorem run_cancelled_key {ε : Type} (env : Env ε) :
    ∀ fuel i, (runLoop env i fuel).result = RunResult.cancelled →
      1 ≤ (runLoop env i fuel).iters ∧
      env.running (i + (runLoop env i fuel).iters - 1) = true ∧
      env.waitKey (i + (runLoop env i fuel).iters - 1) 1 = ordQ := by
  intro fuel
  induction fuel with
  | zero =>
    intro i h
    rw [runLoop_zero] at h
    exact absurd h (by simp)
  | succ n ih =>
    intro i h
    cases hr : env.running i with
    | false =>
      rw [runLoop_not_running env i n hr] at h
      exact absurd h (by simp)
    | true =>
      rcases hb : loopBody env i with ⟨evs, o⟩
      cases o with
      | ok =>
        rw [runLoop_body_ok env i n evs hr hb] at h ⊢
        simp only at h ⊢
        obtain ⟨h1, h2, h3⟩ := ih (i + 1) h
        have harith : i + ((runLoop env (i + 1) n).iters + 1) - 1 =
            (i + 1) + (runLoop env (i + 1) n).iters - 1 := by omega
        rw [harith]
        exact ⟨by omega, h2, h3⟩
      | brk =>
        rw [runLoop_body_brk env i n evs hr hb]
        simp only [Nat.add_sub_cancel]
        obtain ⟨f, d, cf, hv, hd, hc, hs, hevs, hk⟩ :=
          loopBody_complete_inv env i evs BodyOutcome.brk hb (Or.inr rfl)
        rcases hk with ⟨_, hk⟩ | ⟨hcontra, _⟩
        · exact ⟨Nat.le_refl 1, hr, hk⟩
        · exact absurd hcontra (by simp)
      | err e =>
        rw [runLoop_body_err env i n evs e hr hb] at h
        exact absurd h (by simp)

/-- An errored exit comes from a body in which an external call raised. -/
theorem run_errored_from_body {ε : Type} (env : Env ε) :
    ∀ fuel i e, (runLoop env i fuel).result = RunResult.errored e →
      ∃ j evs, i ≤ j ∧ env.running j = true ∧
        loopBody env j = (evs, BodyOutcome.err e) := by
  intro fuel
  induction fuel with
  | zero =>
    intro i e h
    rw [runLoop_zero] at h
    exact absurd h (by simp)
  | succ n ih =>
    intro i e h
    cases hr : env.running i with
    | false =>
      rw [runLoop_not_running env i n hr] at h
      exact absurd h (by simp)
    | true =>
      rcases hb : loopBody env i with ⟨evs, o⟩
      cases o with
      | ok =>
        rw [runLoop_body_ok env i n evs hr hb] at h
        simp only at h
        obtain ⟨j, evs2, hij, hjr, hjb⟩ := ih (i + 1) e h
        exact ⟨j, evs2, by omega, hjr, hjb⟩
      | brk =>
        rw [runLoop_body_brk env i n evs hr hb] at h
        exact absurd h (by simp)
      | err e0 =>
        rw [runLoop_body_err env i n evs e0 hr hb] at h
        simp only [RunResult.errored.injEq] at h
        subst h
        exact ⟨i, evs, Nat.le_refl i, hr, hb⟩

/-! ## Counting lemmas -/

/-- A completed body performs exactly one video retrieval, one IMU
retrieval and one poll. -/
theorem body_complete_counts {ε : Type} (env : Env ε) (i : Nat)
    (evs : List Event) (o : BodyOutcome ε) (h : loopBody env i = (evs, o))
    (ho : o = BodyOutcome.ok ∨ o = BodyOutcome.brk) :
    evs.countP isGetVideo = 1 ∧ evs.countP isGetIMU = 1 ∧
      evs.countP isPoll = 1 := by
  obtain ⟨f, d, cf, _, _, _, _, hevs, _⟩ :=
    loopBody_complete_inv env i evs o h ho
  subst hevs
  refine ⟨?_, ?_, ?_⟩
  · have h0 := printPackets_countP_zero d.packets isGetVideo
      (fun r => rfl) (fun r => rfl)
    simp [List.countP_cons, List.countP_append, h0, isGetVideo]
  · have h0 := printPackets_countP_zero d.packets isGetIMU
      (fun r => rfl) (fun r => rfl)
    simp [List.countP_cons, List.countP_append, h0, isGetIMU]
  · have h0 := printPackets_countP_zero d.packets isPoll
      (fun r => rfl) (fun r => rfl)
    simp [List.countP_cons, List.countP_append, h0, isPoll]

/-- A body cut short by an exception performs no poll. -/
theorem body_err_no_poll {ε : Type} (env : Env ε) (i : Nat)
    (evs : List Event) (e : ε) (h : loopBody env i = (evs, BodyOutcome.err e)) :
    evs.countP isPoll = 0 := by
  rcases loopBody_err_inv env i evs e h with hevs | ⟨f, hevs⟩ | ⟨f, d, hevs⟩ <;>
    subst hevs <;> rfl

/-- Retrieval counts over a bounded run: whenever the run ends normally or
cancelled, the number of video retrievals and of IMU retrievals each equals
the number of completed iterations. -/
theorem run_counts {ε : Type} (env : Env ε) :
    ∀ fuel i, ((runLoop env i fuel).result = RunResult.normal ∨
        (runLoop env i fuel).result = RunResult.cancelled) →
      (runLoop env i fuel).trace.countP isGetVideo = (runLoop env i fuel).iters ∧
      (runLoop env i fuel).trace.countP isGetIMU = (runLoop env i fuel).iters := by
  intro fuel
  induction fuel with
  | zero =>
    intro i h
    rw [runLoop_zero] at h
    rcases h with h | h <;> exact absurd h (by simp)
  | succ n ih =>
    intro i h
    cases hr : env.running i with
    | false => simp [runLoop_not_running env i n hr]
    | true =>
      rcases hb : loopBody env i with ⟨evs, o⟩
      cases o with
      | ok =>
        rw [runLoop_body_ok env i n evs hr hb] at h ⊢
        simp only at h
        obtain ⟨ihv, ihi⟩ := ih (i + 1) h
        obtain ⟨hv1, hi1, _⟩ :=
          body_complete_counts env i evs BodyOutcome.ok hb (Or.inl rfl)
        simp only [List.countP_append, hv1, hi1, ihv, ihi]
        omega
      | brk =>
        rw [runLoop_body_brk env i n evs hr hb]
        obtain ⟨hv1, hi1, _⟩ :=
          body_complete_counts env i evs BodyOutcome.brk hb (Or.inr rfl)
        exact ⟨hv1, hi1⟩
      | err e =>
        rw [runLoop_body_err env i n evs e hr hb] at h
        rcases h with h | h <;> exact absurd h (by simp)

/-- Poll count over a bounded run equals the number of completed
iterations, unconditionally: completed bodies poll exactly once, errored
bodies never reach the poll. -/
theorem run_poll_count {ε : Type} (env : Env ε) :
    ∀ fuel i, (runLoop env i fuel).trace.countP isPoll =
      (runLoop env i fuel).iters := by
  intro fuel
  induction fuel with
  | zero => intro i; rfl
  | succ n ih =>
    intro i
    cases hr : env.running i with
    | false => simp [runLoop_not_running env i n hr]
    | true =>
      rcases hb : loopBody env i with ⟨evs, o⟩
      cases o with
      | ok =>
        rw [runLoop_body_ok env i n evs hr hb]
        obtain ⟨_, _, hp1⟩ :=
          body_complete_counts env i evs BodyOutcome.ok hb (Or.inl rfl)
        simp only [List.countP_append, hp1, ih (i + 1)]
        omega
      | brk =>
        rw [runLoop_body_brk env i n evs hr hb]
        obtain ⟨_, _, hp1⟩ :=
          body_complete_counts env i evs BodyOutcome.brk hb (Or.inr rfl)
        exact hp1
      | err e =>
        rw [runLoop_body_err env i n evs e hr hb]
        exact body_err_no_poll env i evs e hb

/-! ## Poll delay lemmas -/

/-- Every poll event a body emits carries delay `1`, the literal the script
passes to `cv2.waitKey`. -/
theorem body_poll_delay_one {ε : Type} (env : Env ε) (i : Nat)
    (evs : List Event) (o : BodyOutcome ε) (h : loopBody env i = (evs, o))
    (w : Nat) (k : Int) (hmem : Event.poll w k ∈ evs) : w = 1 := by
  cases o with
  | err e =>
    rcases loopBody_err_inv env i evs e h with hevs | ⟨f, hevs⟩ | ⟨f, d, hevs⟩ <;>
      subst hevs <;> simp at hmem
  | ok =>
    obtain ⟨f, d, cf, _, _, _, _, hevs, _⟩ :=
      loopBody_complete_inv env i evs BodyOutcome.ok h (Or.inl rfl)
    subst hevs
    simp only [List.mem_cons, List.mem_append] at hmem
    rcases hmem with h1 | h1 | h1 | h1 | h1
    · exact absurd h1 (by simp)
    · exact absurd h1 (by simp)
    · exact absurd h1 (by simp)
    · rcases mem_printPackets h1 with ⟨r, hr⟩ | ⟨r, hr⟩ <;> simp at hr
    · simp only [List.mem_cons, List.not_mem_nil, or_false, Event.poll.injEq] at h1
      exact h1.1
  | brk =>
    obtain ⟨f, d, cf, _, _, _, _, hevs, _⟩ :=
      loopBody_complete_inv env i evs BodyOutcome.brk h (Or.inr rfl)
    subst hevs
    simp only [List.mem_cons, List.mem_append] at hmem
    rcases hmem with h1 | h1 | h1 | h1 | h1
    · exact absurd h1 (by simp)
    · exact absurd h1 (by simp)
    · exact absurd h1 (by simp)
    · rcases mem_printPackets h1 with ⟨r, hr⟩ | ⟨r, hr⟩ <;> simp at hr
    · simp only [List.mem_cons, List.not_mem_nil, or_false, Event.poll.injEq] at h1
      exact h1.1

/-- Every poll event in a bounded run carries delay `1`. -/
theorem run_poll_delay_one {ε : Type} (env : Env ε) :
    ∀ fuel i (w : Nat) (k : Int),
      Event.poll w k ∈ (runLoop env i fuel).trace → w = 1 := by
  intro fuel
  induction fuel with
  | zero => intro i w k h; simp [runLoop_zero] at h
  | succ n ih =>
    intro i w k h
    cases hr : env.running i with
    | false =>
      rw [runLoop_not_running env i n hr] at h
      simp at h
    | true =>
      rcases hb : loopBody env i with ⟨evs, o⟩
      cases o with
      | ok =>
        rw [runLoop_body_ok env i n evs hr hb] at h
        simp only [List.mem_append] at h
        rcases h with h | h
        · exact body_poll_delay_one env i evs BodyOutcome.ok hb w k h
        · exact ih (i + 1) w k h
      | brk =>
        rw [runLoop_body_brk env i n evs hr hb] at h
        exact body_poll_delay_one env i evs BodyOutcome.brk hb w k h
      | err e =>
        rw [runLoop_body_err env i n evs e hr hb] at h
        exact body_poll_delay_one env i evs (BodyOutcome.err e) hb w k h

/-! ## Concrete sample environments (used by the witnesses) -/

/-- A two-packet IMU batch. -/
def sampleBatch : IMUData :=
  ⟨[⟨⟨1, 2, 3⟩, ⟨4, 5, 6⟩⟩, ⟨⟨7, 8, 9⟩, ⟨10, 11, 12⟩⟩]⟩

/-- A healthy environment: the pipeline runs for two iterations, every
external call succeeds, no key is pressed. -/
def okEnv : Env Nat :=
  ⟨fun i => decide (i < 2), fun i => Except.ok ⟨i⟩,
   fun _ => Except.ok sampleBatch, fun f => Except.ok ⟨f.frameId⟩,
   fun _ _ => Except.ok (), fun _ _ => 0⟩

/-- An environment in which the cancellation key is pressed immediately. -/
def cancelEnv : Env Nat :=
  ⟨fun _ => true, fun i => Except.ok ⟨i⟩,
   fun _ => Except.ok sampleBatch, fun f => Except.ok ⟨f.frameId⟩,
   fun _ _ => Except.ok (), fun _ _ => ordQ⟩

/-- An environment whose video queue raises at once. -/
def videoErrEnv : Env Nat :=
  ⟨fun _ => true, fun _ => Except.error 5,
   fun _ => Except.ok sampleBatch, fun f => Except.ok ⟨f.frameId⟩,
   fun _ _ => Except.ok (), fun _ _ => 0⟩

/-- An environment whose IMU queue raises at once. -/
def imuErrEnv : Env Nat :=
  ⟨fun _ => true, fun i => Except.ok ⟨i⟩,
   fun _ => Except.error 6, fun f => Except.ok ⟨f.frameId⟩,
   fun _ _ => Except.ok (), fun _ _ => 0⟩

/-- An environment whose frame conversion raises at once. -/
def cvErrEnv : Env Nat :=
  ⟨fun _ => true, fun i => Except.ok ⟨i⟩,
   fun _ => Except.ok sampleBatch, fun _ => Except.error 7,
   fun _ _ => Except.ok (), fun _ _ => 0⟩

/-- An environment whose display call raises at once. -/
def imshowErrEnv : Env Nat :=
  ⟨fun _ => true, fun i => Except.ok ⟨i⟩,
   fun _ => Except.ok sampleBatch, fun f => Except.ok ⟨f.frameId⟩,
   fun _ _ => Except.error 8, fun _ _ => 0⟩

/-! ## Claim theorems -/

/-- Claim C1: the driver loop terminates exactly when `isRunning()` returns
false at the top of an iteration, or when the cancellation keystroke is
observed at the end of an iteration; either disjunct alone ends the loop:
(1) not-running alone exits normally at once; (2) the keystroke alone
cancels even if the pipeline keeps running; (3) a normal exit implies
`running` was false after the completed iterations; (4) a cancelled exit
implies the last completed iteration saw `running` true and the key. -/
theorem loop_termination_disjuncts {ε : Type} :
    (∀ (env : Env ε) (i fuel : Nat), env.running i = false →
      runLoop env i (fuel + 1) = ⟨[], 0, RunResult.normal⟩) ∧
    (∀ (env : Env ε) (i fuel : Nat) (f : ImgFrame) (d : IMUData) (cf : CvFrame),
      env.running i = true → env.videoGet i = Except.ok f →
      env.imuGet i = Except.ok d → env.getCvFrame f = Except.ok cf →
      env.imshow "video" cf = Except.ok () → env.waitKey i 1 = ordQ →
      (runLoop env i (fuel + 1)).result = RunResult.cancelled) ∧
    (∀ (env : Env ε) (fuel i : Nat),
      (runLoop env i fuel).result = RunResult.normal →
      env.running (i + (runLoop env i fuel).iters) = false) ∧
    (∀ (env : Env ε) (fuel i : Nat),
      (runLoop env i fuel).result = RunResult.cancelled →
      env.running (i + (runLoop env i fuel).iters - 1) = true ∧
      env.waitKey (i + (runLoop env i fuel).iters - 1) 1 = ordQ) := by
  refine ⟨?_, ?_, ?_, ?_⟩
  · exact fun env i fuel h => runLoop_not_running env i fuel h
  · intro env i fuel f d cf hr hv hd hc hs hk
    have hb := loopBody_ok_eq env i f d cf hv hd hc hs
    rw [if_pos hk] at hb
    rw [runLoop_body_brk env i fuel _ hr hb]
  · exact fun env fuel i h => run_normal_running_false env fuel i h
  · exact fun env fuel i h => (run_cancelled_key env fuel i h).2

/-- Witness for C1 at concrete environments. -/
theorem loop_termination_disjuncts_witness :
    (okEnv.running 2 = false ∧
      runLoop okEnv 2 4 = ⟨[], 0, RunResult.normal⟩) ∧
    (cancelEnv.waitKey 0 1 = ordQ ∧
      (runLoop cancelEnv 0 4).result = RunResult.cancelled) ∧
    ((runLoop okEnv 0 4).result = RunResult.normal ∧
      okEnv.running (0 + (runLoop okEnv 0 4).iters) = false) ∧
    ((runLoop cancelEnv 0 4).result = RunResult.cancelled ∧
      cancelEnv.waitKey (0 + (runLoop cancelEnv 0 4).iters - 1) 1 = ordQ) := by
  refine ⟨⟨rfl, ?_⟩, ⟨rfl, ?_⟩, ⟨rfl, ?_⟩, ⟨rfl, ?_⟩⟩
  · exact loop_termination_disjuncts.1 okEnv 2 3 rfl
  · exact loop_termination_disjuncts.2.1 cancelEnv 0 3 ⟨0⟩ sampleBatch ⟨0⟩
      rfl rfl rfl rfl rfl rfl
  · exact loop_termination_disjuncts.2.2.1 okEnv 4 0 rfl
  · exact (loop_termination_disjuncts.2.2.2 cancelEnv 4 0 rfl).2

/-- Claim C2: every completed iteration retrieves exactly one VideoFrame
and exactly one IMUBatch, and over a run that ends normally or cancelled
the retrieval count on each stream equals the number of completed
iterations. -/
theorem one_video_one_imu_per_iteration {ε : Type} :
    (∀ (env : Env ε) (i : Nat) (evs : List Event) (o : BodyOutcome ε),
      loopBody env i = (evs, o) →
      o = BodyOutcome.ok ∨ o = BodyOutcome.brk →
      evs.countP isGetVideo = 1 ∧ evs.countP isGetIMU = 1) ∧
    (∀ (env : Env ε) (fuel i : Nat),
      ((runLoop env i fuel).result = RunResult.normal ∨
        (runLoop env i fuel).result = RunResult.cancelled) →
      (runLoop env i fuel).trace.countP isGetVideo = (runLoop env i fuel).iters ∧
      (runLoop env i fuel).trace.countP isGetIMU = (runLoop env i fuel).iters) := by
  refine ⟨?_, ?_⟩
  · intro env i evs o h ho
    obtain ⟨h1, h2, _⟩ := body_complete_counts env i evs o h ho
    exact ⟨h1, h2⟩
  · exact fun env fuel i h => run_counts env fuel i h

/-- Witness for C2 at a concrete environment. -/
theorem one_video_one_imu_per_iteration_witness :
    (loopBody okEnv 0 = ((loopBody okEnv 0).1, BodyOutcome.ok) ∧
      (loopBody okEnv 0).1.countP isGetVideo = 1 ∧
      (loopBody okEnv 0).1.countP isGetIMU = 1) ∧
    ((runLoop okEnv 0 4).result = RunResult.normal ∧
      (runLoop okEnv 0 4).trace.countP isGetVideo = (runLoop okEnv 0 4).iters ∧
      (runLoop okEnv 0 4).trace.countP isGetIMU = (runLoop okEnv 0 4).iters) := by
  refine ⟨⟨rfl, ?_, ?_⟩, ⟨rfl, ?_, ?_⟩⟩
  · exact (one_video_one_imu_per_iteration.1 okEnv 0 (loopBody okEnv 0).1
      BodyOutcome.ok rfl (Or.inl rfl)).1
  · exact (one_video_one_imu_per_iteration.1 okEnv 0 (loopBody okEnv 0).1
      BodyOutcome.ok rfl (Or.inl rfl)).2
  · exact (one_video_one_imu_per_iteration.2 okEnv 4 0 (Or.inl rfl)).1
  · exact (one_video_one_imu_per_iteration.2 okEnv 4 0 (Or.inl rfl)).2

/-- Claim C3: no fault in the loop body is caught — a failure of either
queue retrieval, of the frame conversion or of the display call propagates
out of the run as `errored` with the same exception, the partial iteration
is not counted, nothing is retried and no further iteration is attempted
(the trace ends with the events before the fault); conversely every
`errored` exit stems from such a body fault. -/
theorem errors_propagate_uncaught {ε : Type} :
    (∀ (env : Env ε) (i fuel : Nat) (e : ε), env.running i = true →
      env.videoGet i = Except.error e →
      runLoop env i (fuel + 1) = ⟨[], 0, RunResult.errored e⟩) ∧
    (∀ (env : Env ε) (i fuel : Nat) (f : ImgFrame) (e : ε),
      env.running i = true → env.videoGet i = Except.ok f →
      env.imuGet i = Except.error e →
      runLoop env i (fuel + 1) =
        ⟨[Event.getVideo f], 0, RunResult.errored e⟩) ∧
    (∀ (env : Env ε) (i fuel : Nat) (f : ImgFrame) (d : IMUData) (e : ε),
      env.running i = true → env.videoGet i = Except.ok f →
      env.imuGet i = Except.ok d → env.getCvFrame f = Except.error e →
      runLoop env i (fuel + 1) =
        ⟨[Event.getVideo f, Event.getIMU d], 0, RunResult.errored e⟩) ∧
    (∀ (env : Env ε) (i fuel : Nat) (f : ImgFrame) (d : IMUData)
        (cf : CvFrame) (e : ε),
      env.running i = true → env.videoGet i = Except.ok f →
      env.imuGet i = Except.ok d → env.getCvFrame f = Except.ok cf →
      env.imshow "video" cf = Except.error e →
      runLoop env i (fuel + 1) =
        ⟨[Event.getVideo f, Event.getIMU d], 0, RunResult.errored e⟩) ∧
    (∀ (env : Env ε) (fuel i : Nat) (e : ε),
      (runLoop env i fuel).result = RunResult.errored e →
      ∃ j evs, i ≤ j ∧ env.running j = true ∧
        loopBody env j = (evs, BodyOutcome.err e)) := by
  refine ⟨?_, ?_, ?_, ?_, ?_⟩
  · intro env i fuel e hr hv
    exact runLoop_body_err env i fuel [] e hr (loopBody_err_video env i e hv)
  · intro env i fuel f e hr hv hd
    exact runLoop_body_err env i fuel _ e hr (loopBody_err_imu env i f e hv hd)
  · intro env i fuel f d e hr hv hd hc
    exact runLoop_body_err env i fuel _ e hr (loopBody_err_cv env i f d e hv hd hc)
  · intro env i fuel f d cf e hr hv hd hc hs
    exact runLoop_body_err env i fuel _ e hr
      (loopBody_err_imshow env i f d cf e hv hd hc hs)
  · exact fun env fuel i e h => run_errored_from_body env fuel i e h

/-- Witness for C3 at concrete faulting environments. -/
theorem errors_propagate_uncaught_witness :
    (videoErrEnv.videoGet 0 = Except.error 5 ∧
      runLoop videoErrEnv 0 3 = ⟨[], 0, RunResult.errored 5⟩) ∧
    (imuErrEnv.imuGet 0 = Except.error 6 ∧
      runLoop imuErrEnv 0 3 =
        ⟨[Event.getVideo ⟨0⟩], 0, RunResult.errored 6⟩) ∧
    (cvErrEnv.getCvFrame ⟨0⟩ = Except.error 7 ∧
      runLoop cvErrEnv 0 3 =
        ⟨[Event.getVideo ⟨0⟩, Event.getIMU sampleBatch], 0, RunResult.errored 7⟩) ∧
    (imshowErrEnv.imshow "video" ⟨0⟩ = Except.error 8 ∧
      runLoop imshowErrEnv 0 3 =
        ⟨[Event.getVideo ⟨0⟩, Event.getIMU sampleBatch], 0, RunResult.errored 8⟩) ∧
    ((runLoop videoErrEnv 0 3).result = RunResult.errored 5 ∧
      ∃ j evs, 0 ≤ j ∧ videoErrEnv.running j = true ∧
        loopBody videoErrEnv j = (evs, BodyOutcome.err 5)) := by
  refine ⟨⟨rfl, ?_⟩, ⟨rfl, ?_⟩, ⟨rfl, ?_⟩, ⟨rfl, ?_⟩, ⟨rfl, ?_⟩⟩
  · exact errors_propagate_uncaught.1 videoErrEnv 0 2 5 rfl rfl
  · exact errors_propagate_uncaught.2.1 imuErrEnv 0 2 ⟨0⟩ 6 rfl rfl rfl
  · exact errors_propagate_uncaught.2.2.1 cvErrEnv 0 2 ⟨0⟩ sampleBatch 7
      rfl rfl rfl rfl
  · exact errors_propagate_uncaught.2.2.2.1 imshowErrEnv 0 2 ⟨0⟩ sampleBatch ⟨0⟩ 8
      rfl rfl rfl rfl rfl
  · exact errors_propagate_uncaught.2.2.2.2 videoErrEnv 3 0 5 rfl

/-- Claim C4: within an iteration whose external calls succeed, the five
steps occur in strict program order — video retrieval first, then IMU
retrieval, then the converted frame is rendered in the named window
"video", then the per-packet emissions, then the keystroke poll; in
particular the IMU batch is never retrieved before the video frame. -/
theorem iteration_step_order {ε : Type} (env : Env ε) (i : Nat)
    (f : ImgFrame) (d : IMUData) (cf : CvFrame)
    (hv : env.videoGet i = Except.ok f) (hd : env.imuGet i = Except.ok d)
    (hc : env.getCvFrame f = Except.ok cf)
    (hs : env.imshow "video" cf = Except.ok ()) :
    (loopBody env i).1 =
      Event.getVideo f :: Event.getIMU d :: Event.imshow "video" cf ::
        (printPackets d.packets ++ [Event.poll 1 (env.waitKey i 1)]) := by
  rw [loopBody_ok_eq env i f d cf hv hd hc hs]

/-- Witness for C4 at a concrete environment. -/
theorem iteration_step_order_witness :
    okEnv.videoGet 0 = Except.ok ⟨0⟩ ∧
    (loopBody okEnv 0).1 =
      Event.getVideo ⟨0⟩ :: Event.getIMU sampleBatch ::
        Event.imshow "video" ⟨0⟩ ::
        (printPackets sampleBatch.packets ++ [Event.poll 1 (okEnv.waitKey 0 1)]) :=
  ⟨rfl, iteration_step_order okEnv 0 ⟨0⟩ sampleBatch ⟨0⟩ rfl rfl rfl rfl⟩

/-- Claim C5: in every iteration whose external calls succeed, the IMU
emission count equals the batch's packet count on each channel (1:1),
everything printed comes from the packet loop, and the packet at index `n`
yields exactly its accelerometer emission followed by its gyroscope
emission. -/
theorem imu_emission_one_to_one {ε : Type} :
    (∀ (env : Env ε) (i : Nat) (f : ImgFrame) (d : IMUData) (cf : CvFrame),
      env.videoGet i = Except.ok f → env.imuGet i = Except.ok d →
      env.getCvFrame f = Except.ok cf → env.imshow "video" cf = Except.ok () →
      (loopBody env i).1.countP isPrintAccel = d.packets.length ∧
      (loopBody env i).1.countP isPrintGyro = d.packets.length ∧
      (loopBody env i).1.filter isPrint = printPackets d.packets) ∧
    (∀ (ps : List IMUPacket) (n : Nat) (hn : n < ps.length),
      (printPackets ps).get? (2 * n) =
        some (Event.printAccel (ps.get ⟨n, hn⟩).acceleroMeter) ∧
      (printPackets ps).get? (2 * n + 1) =
        some (Event.printGyro (ps.get ⟨n, hn⟩).gyroscope)) := by
  refine ⟨?_, printPackets_get⟩
  intro env i f d cf hv hd hc hs
  rw [loopBody_ok_eq env i f d cf hv hd hc hs]
  refine ⟨?_, ?_, ?_⟩
  · simp [List.countP_cons, List.countP_append, printPackets_countP_accel,
      isPrintAccel]
  · simp [List.countP_cons, List.countP_append, printPackets_countP_gyro,
      isPrintGyro]
  · simp [List.filter_cons, List.filter_append, printPackets_filter_isPrint,
      isPrint, isPrintAccel, isPrintGyro]

/-- Witness for C5 at a concrete environment. -/
theorem imu_emission_one_to_one_witness :
    (okEnv.imuGet 0 = Except.ok sampleBatch ∧
      (loopBody okEnv 0).1.countP isPrintAccel = sampleBatch.packets.length ∧
      (loopBody okEnv 0).1.countP isPrintGyro = sampleBatch.packets.length ∧
      (loopBody okEnv 0).1.filter isPrint = printPackets sampleBatch.packets) ∧
    (0 < sampleBatch.packets.length ∧
      (printPackets sampleBatch.packets).get? (2 * 0) =
        some (Event.printAccel
          ((sampleBatch.packets.get ⟨0, by decide⟩).acceleroMeter))) := by
  refine ⟨⟨rfl, ?_⟩, ⟨by decide, ?_⟩⟩
  · exact imu_emission_one_to_one.1 okEnv 0 ⟨0⟩ sampleBatch ⟨0⟩ rfl rfl rfl rfl
  · exact ((@imu_emission_one_to_one Nat).2 sampleBatch.packets 0 (by decide)).1

/-- Claim C6: the cancellation check is a poll, not a wait — it is invoked
exactly once per completed iteration, always with the minimal delay `1`
that the script passes to `cv2.waitKey`. -/
theorem waitKey_delay_one {ε : Type} :
    (∀ (env : Env ε) (fuel i : Nat),
      (runLoop env i fuel).trace.countP isPoll = (runLoop env i fuel).iters) ∧
    (∀ (env : Env ε) (fuel i : Nat) (w : Nat) (k : Int),
      Event.poll w k ∈ (runLoop env i fuel).trace → w = 1) :=
  ⟨fun env fuel i => run_poll_count env fuel i,
   fun env fuel i w k h => run_poll_delay_one env fuel i w k h⟩

/-- Witness for C6 at a concrete environment. -/
theorem waitKey_delay_one_witness :
    Event.poll 1 0 ∈ (runLoop okEnv 0 3).trace ∧
    (runLoop okEnv 0 3).trace.countP isPoll = (runLoop okEnv 0 3).iters ∧
    (1 : Nat) = 1 :=
  ⟨by decide, waitKey_delay_one.1 okEnv 3 0,
   waitKey_delay_one.2 okEnv 3 0 1 0 (by decide)⟩

/-- Claim C7: with no path argument, the replay-source path handed to the
pipeline is the documented default, unchanged. -/
theorem default_source_path :
    parseSource none = "recordings/recording.tar.gz" ∧
    (buildPipelineConfig none).replaySource = "recordings/recording.tar.gz" ∧
    defaultSource = "recordings/recording.tar.gz" :=
  ⟨rfl, rfl, rfl⟩

/-- Claim C8: before `start()`, the pipeline is configured with the
replay-source path and exactly two sensor nodes: a camera on board socket
CAM_A at 1080p resolution with output size 1920x1080 at 30 fps, and an IMU
with exactly two enabled channels — raw accelerometer at rate 500 and raw
gyroscope at rate 400. -/
theorem pipeline_config_before_start (sourceArg : Option String) :
    (buildPipelineConfig sourceArg).replaySource = parseSource sourceArg ∧
    (buildPipelineConfig sourceArg).camera.boardSocket =
      CameraBoardSocket.CAM_A ∧
    (buildPipelineConfig sourceArg).camera.resolution =
      SensorResolution.THE_1080_P ∧
    (buildPipelineConfig sourceArg).camera.videoWidth = 1920 ∧
    (buildPipelineConfig sourceArg).camera.videoHeight = 1080 ∧
    (buildPipelineConfig sourceArg).camera.fps = 30 ∧
    (buildPipelineConfig sourceArg).imu.enabledSensors =
      [(IMUSensor.ACCELEROMETER_RAW, 500), (IMUSensor.GYROSCOPE_RAW, 400)] ∧
    (buildPipelineConfig sourceArg).imu.enabledSensors.length = 2 :=
  ⟨rfl, rfl, rfl, rfl, rfl, rfl, rfl, rfl⟩

/-- Claim C9: cancellation takes effect only at the end of an iteration:
when the keystroke is observed, the run exits cancelled with that
iteration counted as completed and its full trace — both retrievals, the
named display and every packet emission — already performed. -/
theorem cancellation_completes_iteration {ε : Type} (env : Env ε)
    (i fuel : Nat) (f : ImgFrame) (d : IMUData) (cf : CvFrame)
    (hr : env.running i = true)
    (hv : env.videoGet i = Except.ok f) (hd : env.imuGet i = Except.ok d)
    (hc : env.getCvFrame f = Except.ok cf)
    (hs : env.imshow "video" cf = Except.ok ())
    (hk : env.waitKey i 1 = ordQ) :
    runLoop env i (fuel + 1) =
      ⟨Event.getVideo f :: Event.getIMU d :: Event.imshow "video" cf ::
        (printPackets d.packets ++ [Event.poll 1 (env.waitKey i 1)]),
       1, RunResult.cancelled⟩ := by
  have hb := loopBody_ok_eq env i f d cf hv hd hc hs
  rw [if_pos hk] at hb
  exact runLoop_body_brk env i fuel _ hr hb

/-- Witness for C9 at a concrete environment. -/
theorem cancellation_completes_iteration_witness :
    cancelEnv.waitKey 0 1 = ordQ ∧
    runLoop cancelEnv 0 4 =
      ⟨Event.getVideo ⟨0⟩ :: Event.getIMU sampleBatch ::
        Event.imshow "video" ⟨0⟩ ::
        (printPackets sampleBatch.packets ++
          [Event.poll 1 (cancelEnv.waitKey 0 1)]),
       1, RunResult.cancelled⟩ :=
  ⟨rfl, cancellation_completes_iteration cancelEnv 0 3 ⟨0⟩ sampleBatch ⟨0⟩
    rfl rfl rfl rfl rfl rfl⟩

/-- Claim C10: the cancellation key is exactly the character q — `ordQ` is
its code 113, a completed body breaks if and only if the poll returned
`ordQ`, and any other key leaves the loop to proceed with the next
`isRunning()` check (the run continues as the run from the next
iteration). -/
theorem cancellation_key_is_q {ε : Type} :
    ordQ = 113 ∧
    (∀ (env : Env ε) (i : Nat) (f : ImgFrame) (d : IMUData) (cf : CvFrame),
      env.videoGet i = Except.ok f → env.imuGet i = Except.ok d →
      env.getCvFrame f = Except.ok cf → env.imshow "video" cf = Except.ok () →
      ((loopBody env i).2 = BodyOutcome.brk ↔ env.waitKey i 1 = ordQ)) ∧
    (∀ (env : Env ε) (i fuel : Nat) (f : ImgFrame) (d : IMUData) (cf : CvFrame),
      env.running i = true → env.videoGet i = Except.ok f →
      env.imuGet i = Except.ok d → env.getCvFrame f = Except.ok cf →
      env.imshow "video" cf = Except.ok () → env.waitKey i 1 ≠ ordQ →
      (runLoop env i (fuel + 1)).result = (runLoop env (i + 1) fuel).result) := by
  refine ⟨rfl, ?_, ?_⟩
  · intro env i f d cf hv hd hc hs
    have hb := loopBody_ok_eq env i f d cf hv hd hc hs
    constructor
    · intro h
      by_contra hk
      rw [if_neg hk] at hb
      rw [hb] at h
      exact absurd h (by simp)
    · intro hk
      rw [if_pos hk] at hb
      rw [hb]
  · intro env i fuel f d cf hr hv hd hc hs hk
    have hb := loopBody_ok_eq env i f d cf hv hd hc hs
    rw [if_neg hk] at hb
    rw [runLoop_body_ok env i fuel _ hr hb]

/-- Witness for C10 at concrete environments. -/
theorem cancellation_key_is_q_witness :
    (cancelEnv.videoGet 0 = Except.ok ⟨0⟩ ∧
      ((loopBody cancelEnv 0).2 = BodyOutcome.brk ↔
        cancelEnv.waitKey 0 1 = ordQ)) ∧
    (okEnv.waitKey 0 1 ≠ ordQ ∧
      (runLoop okEnv 0 3).result = (runLoop okEnv 1 2).result) := by
  refine ⟨⟨rfl, ?_⟩, ⟨by decide, ?_⟩⟩
  · exact cancellation_key_is_q.2.1 cancelEnv 0 ⟨0⟩ sampleBatch ⟨0⟩
      rfl rfl rfl rfl
  · exact cancellation_key_is_q.2.2 okEnv 0 2 ⟨0⟩ sampleBatch ⟨0⟩
      rfl rfl rfl rfl rfl (by decide)

end HolisticReplay
